import Mathlib

/-!
Verification development for the attention core in
`src/xtuner/model/modules/internlm.py`.

Tensors are embedded as nested lists of integers (torch float entries are
modelled by an exact commutative ring; none of the verified properties
depend on floating-point rounding).  A tensor of shape `[b, h, s, d]` is a
`T4`, its last dimension a `Vec`.  External collaborators (the linear
projections `q_proj`/`k_proj`/`v_proj`/`o_proj`, the rotary-table provider
`rotary_emb`, and the four attention kernels, which live in external
libraries) are parameters of the embedding: the source calls them but does
not define them.  The `MessageHub` entries for the current rank
(`cumulative_len_rank_r`, `indexes_rank_r`, `max_seqlen_rank_r`) are the
`HubState`; `MessageHub.get_info` returns a reference to the stored object,
so in-place tensor updates performed by the forward pass are visible in the
hub afterwards — the embedding passes the hub state explicitly and returns
the post-call state.  Python `assert` failures become `Except.error`;
the two assert sites of the source (line 66, the layout check, and line 94,
the `SUPPORT_FLASH2` capability check) are tagged by distinct constructors.
-/

abbrev Vec := List Int
abbrev T2 := List Vec
abbrev T3 := List T2
abbrev T4 := List T3

/-- Embedding of `rotate_half` (internlm.py lines 26-30):
`x1 = x[..., :d//2]`, `x2 = x[..., d//2:]`, result `cat((-x2, x1))`,
acting on the last dimension. -/
def rotate_half (x : Vec) : Vec :=
  ((x.drop (x.length / 2)).map (fun a => -a)) ++ x.take (x.length / 2)

/-- Elementwise product along the last dimension (torch broadcasted `*`). -/
def vmul (a b : Vec) : Vec := List.zipWith (fun x y => x * y) a b

/-- Elementwise sum along the last dimension (torch broadcasted `+`). -/
def vadd (a b : Vec) : Vec := List.zipWith (fun x y => x + y) a b

/-- Embedding of `cos.squeeze(1).squeeze(0)` for a `[1, 1, L, d]` table. -/
def squeeze01 (t : T4) : T2 := (t.getD 0 []).getD 0 []

/-- Rotation of one `[bs, nh, seq, dim]` tensor by squeezed tables:
gather the `cos`/`sin` rows at the `[bs, seq]` position index, broadcast
over the head dimension, and return `x*cos + rotate_half(x)*sin`.  This is
the expression applied to both `q` and `k` in `apply_rotary_pos_emb`. -/
def rotEmbed (cosS sinS : T2) (position_ids : List (List Nat)) (x : T4) : T4 :=
  List.zipWith
    (fun xb pb =>
      xb.map (fun xh =>
        List.zipWith
          (fun xv p =>
            vadd (vmul xv (cosS.getD p [])) (vmul (rotate_half xv) (sinS.getD p [])))
          xh pb))
    x position_ids

/-- Embedding of `apply_rotary_pos_emb` (internlm.py lines 33-42):
squeeze the tables to `[L, d]`, then rotate `q` and `k`. -/
def apply_rotary_pos_emb (q k cosT sinT : T4) (position_ids : List (List Nat)) :
    T4 × T4 :=
  (rotEmbed (squeeze01 cosT) (squeeze01 sinT) position_ids q,
   rotEmbed (squeeze01 cosT) (squeeze01 sinT) position_ids k)

/-- Split a flat vector into `n` consecutive chunks of width `w`
(the data movement of torch `view`/`reshape`). -/
def splitChunks : Nat → Nat → Vec → List Vec
  | 0, _, _ => []
  | n + 1, w, v => v.take w :: splitChunks n w (v.drop w)

/-- Embedding of `.view(bsz, q_len, num_heads, head_dim)` applied to a
`[bsz, q_len, hidden]` tensor: chunk the last dimension. -/
def view_heads (nh hd : Nat) (t : T3) : T4 := t.map (fun m => m.map (splitChunks nh hd))

/-- Apply a linear projection to the last dimension of a rank-3 tensor. -/
def mapLast2 (f : Vec → Vec) (t : T3) : T3 := t.map (fun m => m.map f)

/-- Embedding of `.transpose(1, 2)` on a rank-4 tensor. -/
def transpose12 (t : T4) : T4 := t.map List.transpose

/-- Embedding of `.shape[-2]` of a `[b, h, s, d]` tensor. -/
def seqDim (t : T4) : Nat := ((t.getD 0 []).getD 0 []).length

/-- Embedding of `torch.cat([a, b], dim=2)` on `[b, h, s, d]` tensors. -/
def torchCatDim2 (a b : T4) : T4 :=
  List.zipWith (fun x y => List.zipWith (fun u w => u ++ w) x y) a b

/-- Embedding of the cache merge (internlm.py lines 87-90): when a past
key/value pair is present, concatenate it in front of the new key/value
along the sequence axis (dim 2); otherwise the new pair passes through. -/
def mergeKV (past : Option (T4 × T4)) (k v : T4) : T4 × T4 :=
  match past with
  | some p => (torchCatDim2 p.1 k, torchCatDim2 p.2 v)
  | none => (k, v)

/-- Embedding of `.flatten(0, 1)` on a `[B, S, H, K]` tensor. -/
def flatten01 (t : T4) : T3 := t.flatten

/-- Row-major flat data of a rank-3 tensor. -/
def flatten3 (t : T3) : Vec := (t.map List.flatten).flatten

/-- Row-major flat data of a rank-4 tensor. -/
def flatten4 (t : T4) : Vec := (t.map flatten3).flatten

/-- Embedding of `.reshape(b, s, h)`: reinterpret flat data. -/
def reshape3 (b s h : Nat) (v : Vec) : T3 := (splitChunks b (s * h) v).map (splitChunks s h)

/-- Embedding of the boundary re-basing loop (internlm.py lines 106-107):
`for i in range(1, bsz): cumulative_len[i] += q_len * i`.  The `+=` is an
in-place tensor add, so entry `0` is untouched and entry `i` (for `i >= 1`)
is shifted by `q_len * i`. -/
def rebaseFrom (q_len : Nat) : Nat → List (List Int) → List (List Int)
  | _, [] => []
  | i, t :: ts =>
      (if i = 0 then t else t.map (fun a => a + ((q_len * i : Nat) : Int))) ::
        rebaseFrom q_len (i + 1) ts

/-- Import-time feature flags of the module (internlm.py lines 9-23). -/
structure Caps where
  SUPPORT_FLASH2 : Bool
  SUPPORT_XFORMERS : Bool

/-- The externally linked attention kernels.  `flash_attn_varlen_func`
receives flattened `[total, H, K]` tensors, the two cumulative-length
tensors and the two max-seqlen bounds (the constant dropout/causal
arguments of the call site are folded in); `scaled_dot_product_attention`
is the only kernel that receives the `attention_mask`. -/
structure Kernels where
  flash_attn_varlen_func : T3 → T3 → T3 → List Int → List Int → Nat → Nat → T3
  flash_attn_func : T4 → T4 → T4 → T4
  memory_efficient_attention : T4 → T4 → T4 → T4
  scaled_dot_product_attention : T4 → T4 → T4 → Option T4 → T4

/-- The attributes of the attention module instance (`self`) that the
forward pass reads. -/
structure AttnSelf where
  num_heads : Nat
  head_dim : Nat
  hidden_size : Nat
  q_proj : Vec → Vec
  k_proj : Vec → Vec
  v_proj : Vec → Vec
  o_proj : Vec → Vec
  rotary_emb : T4 → Nat → T4 × T4

/-- The rank-scoped `MessageHub` entries read by the forward pass
(internlm.py lines 56-60). -/
structure HubState where
  cumulative_len : Option (List (List Int))
  indexes : Option (List (List Nat))
  max_seqlen : Option Nat
deriving DecidableEq

/-- A Python `AssertionError`, tagged with the assert site that raised it:
the layout check of line 66 or the `SUPPORT_FLASH2` check of line 94. -/
inductive PyErr where
  | assertionLayout
  | assertionFlash2
deriving DecidableEq

/-- Result of a successful forward call: the returned triple
`(attn_output, attn_weights, past_key_value)` together with the hub state
after the call. -/
abbrev FwdOut := (T3 × Option T4 × Option (T4 × T4)) × HubState

def isOkB : Except PyErr FwdOut → Bool
  | Except.ok _ => true
  | Except.error _ => false

/-- Embedding of `internlm_attn_forward` (internlm.py lines 45-142).
The hub state is threaded explicitly: the returned `HubState` is the
content of the rank-scoped `MessageHub` entries after the call. -/
def internlm_attn_forward (caps : Caps) (K : Kernels) (self : AttnSelf)
    (hub : HubState) (hidden_states : T3) (attention_mask : Option T4)
    (position_ids : Option (List (List Nat))) (past_key_value : Option (T4 × T4))
    (output_attentions : Bool) (use_cache : Bool) : Except PyErr FwdOut :=
  let use_local_attn := hub.cumulative_len.isSome
  let bsz := hidden_states.length
  let q_len := (hidden_states.getD 0 []).length
  let cl := hub.cumulative_len.getD []
  if use_local_attn && !(cl.length == bsz && (cl.getD 0 []).getLastD 0 == (q_len : Int)) then
    Except.error PyErr.assertionLayout
  else
    let query_states :=
      transpose12 (view_heads self.num_heads self.head_dim (mapLast2 self.q_proj hidden_states))
    let key_states :=
      transpose12 (view_heads self.num_heads self.head_dim (mapLast2 self.k_proj hidden_states))
    let value_states :=
      transpose12 (view_heads self.num_heads self.head_dim (mapLast2 self.v_proj hidden_states))
    let kv_seq_len := seqDim key_states +
      (match past_key_value with | some p => seqDim p.1 | none => 0)
    let cs := self.rotary_emb value_states kv_seq_len
    let qk := apply_rotary_pos_emb query_states key_states cs.1 cs.2
      (if use_local_attn then hub.indexes.getD [] else position_ids.getD [])
    let kv := mergeKV past_key_value qk.2 value_states
    let past_kv_out := if use_cache then some kv else none
    if !caps.SUPPORT_FLASH2 then
      Except.error PyErr.assertionFlash2
    else
      let fr : Vec × HubState :=
        if caps.SUPPORT_FLASH2 || caps.SUPPORT_XFORMERS then
          let qT := transpose12 qk.1
          let kT := transpose12 kv.1
          let vT := transpose12 kv.2
          if caps.SUPPORT_FLASH2 then
            if use_local_attn then
              let cl2 := rebaseFrom q_len 0 cl
              let m := hub.max_seqlen.getD 0
              (flatten3 (K.flash_attn_varlen_func (flatten01 qT) (flatten01 kT)
                  (flatten01 vT) cl2.flatten cl2.flatten m m),
               { hub with cumulative_len := some cl2 })
            else
              (flatten4 (K.flash_attn_func qT kT vT), hub)
          else
            (flatten4 (K.memory_efficient_attention qT kT vT), hub)
        else
          (flatten4 (transpose12 (K.scaled_dot_product_attention qk.1 kv.1 kv.2 attention_mask)),
           hub)
      Except.ok
        ((mapLast2 self.o_proj (reshape3 bsz q_len self.hidden_size fr.1), none, past_kv_out),
         fr.2)

/-- Shape predicate for a `[s, d]` tensor. -/
def shape2 (s d : Nat) (t : T2) : Prop := t.length = s ∧ ∀ r ∈ t, r.length = d

/-- Shape predicate for a `[b, h, s, d]` tensor. -/
def shape4 (b h s d : Nat) (t : T4) : Prop :=
  t.length = b ∧ ∀ x ∈ t, x.length = h ∧ ∀ m ∈ x, shape2 s d m

instance shape2Dec (s d : Nat) (t : T2) : Decidable (shape2 s d t) := by
  unfold shape2; exact inferInstance

instance shape4Dec (b h s d : Nat) (t : T4) : Decidable (shape4 b h s d t) := by
  unfold shape4; exact inferInstance

/-- Concrete kernel set for witnesses: each kernel returns its query. -/
def K0 : Kernels where
  flash_attn_varlen_func := fun q _ _ _ _ _ _ => q
  flash_attn_func := fun q _ _ => q
  memory_efficient_attention := fun q _ _ => q
  scaled_dot_product_attention := fun q _ _ _ => q

/-- Kernel set differing from `K0` in every kernel. -/
def K1 : Kernels where
  flash_attn_varlen_func := fun _ _ _ _ _ _ _ => []
  flash_attn_func := fun _ _ _ => []
  memory_efficient_attention := fun _ _ _ => []
  scaled_dot_product_attention := fun _ _ _ _ => []

/-- Kernel set agreeing with `K0` only on the dense causal kernel. -/
def K2 : Kernels where
  flash_attn_varlen_func := fun _ _ _ _ _ _ _ => []
  flash_attn_func := fun q _ _ => q
  memory_efficient_attention := fun _ _ _ => []
  scaled_dot_product_attention := fun _ _ _ _ => []

/-- Kernel set agreeing with `K0` only on the packed variable-length kernel. -/
def K3 : Kernels where
  flash_attn_varlen_func := fun q _ _ _ _ _ _ => q
  flash_attn_func := fun _ _ _ => []
  memory_efficient_attention := fun _ _ _ => []
  scaled_dot_product_attention := fun _ _ _ _ => []

/-- Concrete module instance: one head of dimension two, identity
projections, a rotary provider returning an all-ones cosine table and an
all-zeros sine table of the requested length. -/
def self0 : AttnSelf where
  num_heads := 1
  head_dim := 2
  hidden_size := 2
  q_proj := id
  k_proj := id
  v_proj := id
  o_proj := id
  rotary_emb := fun _ n => ([[List.replicate n [1, 1]]], [[List.replicate n [0, 0]]])

def capsF : Caps := ⟨true, false⟩
def capsX : Caps := ⟨false, true⟩
def capsN : Caps := ⟨false, false⟩

def hubPadded : HubState := ⟨none, none, none⟩

/-- Packed hub state: two samples, each of packed length three. -/
def hubP : HubState := ⟨some [[0, 3], [0, 3]], some [[0, 1, 2], [0, 1, 2]], some 3⟩

/-- Packed hub state whose second sample's final boundary (2) differs from
that sample's row length (3). -/
def hubBad : HubState := ⟨some [[0, 3], [0, 2]], some [[0, 1, 2], [0, 1, 2]], some 3⟩

/-- Packed hub state whose first sample's final boundary (3) differs from
the row length of `hs1` (2). -/
def hubW : HubState := ⟨some [[0, 3]], some [[0, 1]], some 3⟩

/-- Padded batch: one sample, two tokens, hidden size two. -/
def hs1 : T3 := [[[1, 0], [0, 1]]]

def pos1 : List (List Nat) := [[0, 1]]

/-- Packed batch: two rows of three tokens each, hidden size two. -/
def hs2 : T3 := [[[1, 0], [0, 1], [1, 1]], [[2, 0], [0, 2], [2, 2]]]

/-- A one-token past key/value cache of shape `[1, 1, 1, 2]`. -/
def P0 : T4 × T4 := ([[[[9, 9]]]], [[[[8, 8]]]])

def M0 : T4 := [[[[5, 5]]]]

def fwd7 : Except PyErr FwdOut :=
  internlm_attn_forward capsF K0 self0 hubPadded hs1 none (some pos1) (some P0) false true

def fwd8 : Except PyErr FwdOut :=
  internlm_attn_forward capsF K0 self0 hubPadded hs1 none (some pos1) none true false

def okOut (e : Except PyErr FwdOut) : FwdOut :=
  e.toOption.getD (([], none, none), ⟨none, none, none⟩)

/-- Fixtures for the rotary claims: `[1, 1, 2, 2]` query/key tensors, a
single-row table, all-zero positions. -/
def q5 : T4 := [[[[1, 2], [3, 4]]]]
def k5 : T4 := [[[[5, 6], [7, 8]]]]
def cosT5 : T4 := [[[[1, 1]]]]
def sinT5 : T4 := [[[[0, 0]]]]
def pos5 : List (List Nat) := [[0, 0]]

/-- Fixtures for the cache-merge claim. -/
def pk4 : T4 := [[[[1, 1], [2, 2]]]]
def pv4 : T4 := [[[[3, 3], [4, 4]]]]
def k4 : T4 := [[[[5, 5]]]]
def v4 : T4 := [[[[6, 6]]]]

theorem rotate_half_len (x : Vec) : (rotate_half x).length = x.length := by
  simp only [rotate_half, List.length_append, List.length_map, List.length_drop,
    List.length_take]
  omega

theorem zipWith_eq_left {α β : Type} (f : α → β → α) :
    ∀ (l : List α) (m : List β), l.length ≤ m.length →
      (∀ a ∈ l, ∀ b ∈ m, f a b = a) → List.zipWith f l m = l := by
  intro l
  induction l with
  | nil => intro m _ _; simp
  | cons a t ih =>
      intro m hlen hp
      cases m with
      | nil => simp at hlen
      | cons b s =>
          simp only [List.zipWith_cons_cons]
          rw [hp a (List.mem_cons_self a t) b (List.mem_cons_self b s),
            ih s (by simpa using hlen) (fun a1 ha1 b1 hb1 =>
              hp a1 (List.mem_cons_of_mem a ha1) b1 (List.mem_cons_of_mem b hb1))]

theorem forall_mem_zipWith {α β γ : Type} (f : α → β → γ) (P : γ → Prop) :
    ∀ (l : List α) (m : List β), (∀ a ∈ l, ∀ b ∈ m, P (f a b)) →
      ∀ y ∈ List.zipWith f l m, P y := by
  intro l
  induction l with
  | nil => intro m _ y hy; simp at hy
  | cons a t ih =>
      intro m hp y hy
      cases m with
      | nil => simp at hy
      | cons b s =>
          simp only [List.zipWith_cons_cons, List.mem_cons] at hy
          rcases hy with h | h
          · subst h; exact hp a (List.mem_cons_self a t) b (List.mem_cons_self b s)
          · exact ih s (fun a1 ha1 b1 hb1 =>
              hp a1 (List.mem_cons_of_mem a ha1) b1 (List.mem_cons_of_mem b hb1)) y h

theorem map_id_of_mem {α : Type} (f : α → α) (l : List α) (h : ∀ a ∈ l, f a = a) :
    l.map f = l := by
  induction l with
  | nil => rfl
  | cons a t ih =>
      simp only [List.map_cons]
      rw [h a (List.mem_cons_self a t), ih (fun a1 ha1 => h a1 (List.mem_cons_of_mem a ha1))]

theorem vmul_one_right (v : Vec) : vmul v (List.replicate v.length 1) = v := by
  induction v with
  | nil => rfl
  | cons a t ih => simpa [vmul, List.replicate_succ] using ih

theorem vmul_zero_right (v : Vec) :
    vmul v (List.replicate v.length 0) = List.replicate v.length 0 := by
  induction v with
  | nil => rfl
  | cons a t ih => simpa [vmul, List.replicate_succ] using ih

theorem vadd_zero_right (v : Vec) : vadd v (List.replicate v.length 0) = v := by
  induction v with
  | nil => rfl
  | cons a t ih => simpa [vadd, List.replicate_succ] using ih

theorem rot_row_id (xv : Vec) (d : Nat) (h : xv.length = d) :
    vadd (vmul xv (List.replicate d 1)) (vmul (rotate_half xv) (List.replicate d 0)) = xv := by
  subst h
  rw [vmul_one_right,
    show List.replicate xv.length (0 : Int) = List.replicate (rotate_half xv).length 0 by
      rw [rotate_half_len],
    vmul_zero_right, rotate_half_len, vadd_zero_right]

theorem rot_row_len (xv c sv : Vec) (d : Nat) (h : xv.length = d) (hc : c.length = d)
    (hs1 : sv.length = d) :
    (vadd (vmul xv c) (vmul (rotate_half xv) sv)).length = d := by
  simp [vadd, vmul, List.length_zipWith, rotate_half_len, h, hc, hs1]

theorem getD_row_len (t : T2) (d p : Nat) (hp : p < t.length) (h : ∀ r ∈ t, r.length = d) :
    (t.getD p []).length = d := by
  rw [List.getD_eq_getElem t [] hp]
  exact h _ (List.getElem_mem hp)

theorem rotEmbed_shape (cosS sinS : T2) (pos : List (List Nat)) (x : T4)
    (b h s d L : Nat) (hx : shape4 b h s d x)
    (hcos : shape2 L d cosS) (hsin : shape2 L d sinS)
    (hpl : pos.length = b) (hps : ∀ r ∈ pos, r.length = s)
    (hbound : ∀ r ∈ pos, ∀ p ∈ r, p < L) :
    shape4 b h s d (rotEmbed cosS sinS pos x) := by
  obtain ⟨hxl, hxm⟩ := hx
  constructor
  · simp [rotEmbed, List.length_zipWith, hxl, hpl]
  · intro y hy
    simp only [rotEmbed] at hy
    refine forall_mem_zipWith _ (fun y => y.length = h ∧ ∀ m ∈ y, shape2 s d m) x pos
      ?_ y hy
    intro xb hxb pb hpb
    obtain ⟨hbl, hbm⟩ := hxm xb hxb
    constructor
    · simp [hbl]
    · intro m hm
      rw [List.mem_map] at hm
      obtain ⟨xh, hxh, rfl⟩ := hm
      obtain ⟨hhl, hhd⟩ := hbm xh hxh
      constructor
      · simp [List.length_zipWith, hhl, hps pb hpb]
      · intro rrow hrrow
        refine forall_mem_zipWith _ (fun r => r.length = d) xh pb ?_ rrow hrrow
        intro xv hxv p hp
        exact rot_row_len xv _ _ d (hhd xv hxv)
          (getD_row_len cosS d p (by rw [hcos.1]; exact hbound pb hpb p hp) hcos.2)
          (getD_row_len sinS d p (by rw [hsin.1]; exact hbound pb hpb p hp) hsin.2)

theorem rotEmbed_id (cosS sinS : T2) (pos : List (List Nat)) (x : T4)
    (b h s d : Nat) (hx : shape4 b h s d x)
    (hpl : b ≤ pos.length) (hps : ∀ r ∈ pos, r.length = s)
    (hzero : ∀ r ∈ pos, ∀ p ∈ r, p = 0)
    (hc : cosS.getD 0 [] = List.replicate d 1)
    (hs0 : sinS.getD 0 [] = List.replicate d 0) :
    rotEmbed cosS sinS pos x = x := by
  obtain ⟨hxl, hxm⟩ := hx
  unfold rotEmbed
  refine zipWith_eq_left _ x pos (by rw [hxl]; exact hpl) ?_
  intro xb hxb pb hpb
  obtain ⟨hbl, hbm⟩ := hxm xb hxb
  refine map_id_of_mem _ xb ?_
  intro xh hxh
  obtain ⟨hhl, hhd⟩ := hbm xh hxh
  refine zipWith_eq_left _ xh pb (by rw [hhl, hps pb hpb]) ?_
  intro xv hxv p hp
  rw [hzero pb hpb p hp, hc, hs0]
  exact rot_row_id xv d (hhd xv hxv)

/-- C10: for every vector `x` along the last dimension, including one of
odd length, `rotate_half` returns a vector of exactly the same length (the
split takes the first `d / 2` elements and the remaining `d - d / 2`, and
the concatenation restores the original size). -/
theorem rotate_half_preserves_shape (x : Vec) : (rotate_half x).length = x.length :=
  rotate_half_len x

/-- C6: for every vector `x` of even length along the last dimension,
applying `rotate_half` twice yields the elementwise negation. -/
theorem rotate_half_involutive (x : Vec) (h : x.length % 2 = 0) :
    rotate_half (rotate_half x) = x.map (fun a => -a) := by
  have hA : ((x.drop (x.length / 2)).map (fun a : Int => -a)).length = x.length / 2 := by
    simp only [List.length_map, List.length_drop]; omega
  have hlen : (rotate_half x).length = x.length := rotate_half_len x
  calc rotate_half (rotate_half x)
      = ((rotate_half x).drop ((rotate_half x).length / 2)).map (fun a => -a) ++
          (rotate_half x).take ((rotate_half x).length / 2) := rfl
    _ = ((rotate_half x).drop (x.length / 2)).map (fun a => -a) ++
          (rotate_half x).take (x.length / 2) := by rw [hlen]
    _ = (x.take (x.length / 2)).map (fun a => -a) ++
          (x.drop (x.length / 2)).map (fun a => -a) := by
          rw [show rotate_half x =
              ((x.drop (x.length / 2)).map (fun a => -a)) ++ x.take (x.length / 2) from rfl,
            List.drop_left' hA, List.take_left' hA]
    _ = (x.take (x.length / 2) ++ x.drop (x.length / 2)).map (fun a => -a) := by
          rw [List.map_append]
    _ = x.map (fun a => -a) := by rw [List.take_append_drop]

theorem rotate_half_involutive_witness :
    (([1, 2, 3, 4] : Vec).length % 2 = 0) ∧
    rotate_half (rotate_half [1, 2, 3, 4]) = ([1, 2, 3, 4] : Vec).map (fun a => -a) :=
  ⟨by decide, rotate_half_involutive [1, 2, 3, 4] (by decide)⟩

/-- C5: for query/key tensors and a position index of consistent shapes,
`apply_rotary_pos_emb` preserves the input shapes; and when every selected
position index is `0` and row `0` of the squeezed tables is all-ones cosine
and all-zeros sine, the outputs equal the inputs unchanged. -/
theorem apply_rotary_shape_and_identity
    (q k cosT sinT : T4) (pos : List (List Nat)) (b h s d L : Nat)
    (hq : shape4 b h s d q) (hk : shape4 b h s d k)
    (hcos : shape2 L d (squeeze01 cosT)) (hsin : shape2 L d (squeeze01 sinT))
    (hpl : pos.length = b) (hps : ∀ r ∈ pos, r.length = s)
    (hbound : ∀ r ∈ pos, ∀ p ∈ r, p < L) :
    shape4 b h s d (apply_rotary_pos_emb q k cosT sinT pos).1 ∧
    shape4 b h s d (apply_rotary_pos_emb q k cosT sinT pos).2 ∧
    ((∀ r ∈ pos, ∀ p ∈ r, p = 0) →
      (squeeze01 cosT).getD 0 [] = List.replicate d 1 →
      (squeeze01 sinT).getD 0 [] = List.replicate d 0 →
      apply_rotary_pos_emb q k cosT sinT pos = (q, k)) := by
  simp only [apply_rotary_pos_emb]
  refine ⟨?_, ?_, ?_⟩
  · exact rotEmbed_shape _ _ _ _ b h s d L hq hcos hsin hpl hps hbound
  · exact rotEmbed_shape _ _ _ _ b h s d L hk hcos hsin hpl hps hbound
  · intro hz hc hs0
    rw [rotEmbed_id _ _ _ _ b h s d hq (le_of_eq hpl.symm) hps hz hc hs0,
      rotEmbed_id _ _ _ _ b h s d hk (le_of_eq hpl.symm) hps hz hc hs0]

theorem apply_rotary_shape_and_identity_witness :
    shape4 1 1 2 2 (apply_rotary_pos_emb q5 k5 cosT5 sinT5 pos5).1 ∧
    shape4 1 1 2 2 (apply_rotary_pos_emb q5 k5 cosT5 sinT5 pos5).2 ∧
    ((∀ r ∈ pos5, ∀ p ∈ r, p = 0) →
      (squeeze01 cosT5).getD 0 [] = List.replicate 2 1 →
      (squeeze01 sinT5).getD 0 [] = List.replicate 2 0 →
      apply_rotary_pos_emb q5 k5 cosT5 sinT5 pos5 = (q5, k5)) :=
  apply_rotary_shape_and_identity q5 k5 cosT5 sinT5 pos5 1 1 2 2 1
    (by decide) (by decide) (by decide) (by decide) (by decide) (by decide) (by decide)

theorem zipWith_getD {α β γ : Type} (f : α → β → γ) (d1 : α) (d2 : β) (d3 : γ) :
    ∀ (a : List α) (b : List β) (i : Nat), i < a.length → i < b.length →
      (List.zipWith f a b).getD i d3 = f (a.getD i d1) (b.getD i d2) := by
  intro a
  induction a with
  | nil => intro b i h _; simp at h
  | cons x t ih =>
      intro b i h1 h2
      cases b with
      | nil => simp at h2
      | cons y s =>
          cases i with
          | zero => rfl
          | succ j =>
              simp only [List.zipWith_cons_cons, List.getD_cons_succ]
              exact ih s j (by simpa using h1) (by simpa using h2)

/-- C4: merging with an absent cache returns the new key/value unchanged;
merging with a present cache concatenates along the sequence axis with the
cache first, so each merged per-batch per-head slice has length `N` plus
the new length and its first `N` entries equal the original cache slice
(the embedding is pure, so the original cache is never modified). -/
theorem mergeKV_spec :
    (∀ (k v : T4), mergeKV none k v = (k, v)) ∧
    (∀ (pk pv k v : T4) (b h : Nat),
      b < pk.length → b < k.length → b < pv.length → b < v.length →
      h < (pk.getD b []).length → h < (k.getD b []).length →
      h < (pv.getD b []).length → h < (v.getD b []).length →
      (((mergeKV (some (pk, pv)) k v).1.getD b []).getD h [] =
          ((pk.getD b []).getD h []) ++ ((k.getD b []).getD h [])) ∧
      (((mergeKV (some (pk, pv)) k v).2.getD b []).getD h [] =
          ((pv.getD b []).getD h []) ++ ((v.getD b []).getD h [])) ∧
      (((mergeKV (some (pk, pv)) k v).1.getD b []).getD h []).length =
          ((pk.getD b []).getD h []).length + ((k.getD b []).getD h []).length ∧
      (((mergeKV (some (pk, pv)) k v).1.getD b []).getD h []).take
          ((pk.getD b []).getD h []).length = (pk.getD b []).getD h []) := by
  constructor
  · intro k v; rfl
  · intro pk pv k v b h hb1 hb2 hb3 hb4 hh1 hh2 hh3 hh4
    have e1 : ((mergeKV (some (pk, pv)) k v).1.getD b []).getD h [] =
        ((pk.getD b []).getD h []) ++ ((k.getD b []).getD h []) := by
      simp only [mergeKV, torchCatDim2]
      rw [zipWith_getD _ [] [] [] pk k b hb1 hb2,
        zipWith_getD _ [] [] [] (pk.getD b []) (k.getD b []) h hh1 hh2]
    have e2 : ((mergeKV (some (pk, pv)) k v).2.getD b []).getD h [] =
        ((pv.getD b []).getD h []) ++ ((v.getD b []).getD h []) := by
      simp only [mergeKV, torchCatDim2]
      rw [zipWith_getD _ [] [] [] pv v b hb3 hb4,
        zipWith_getD _ [] [] [] (pv.getD b []) (v.getD b []) h hh3 hh4]
    refine ⟨e1, e2, ?_, ?_⟩
    · rw [e1, List.length_append]
    · rw [e1, List.take_left]

theorem mergeKV_spec_witness :
    (((mergeKV (some (pk4, pv4)) k4 v4).1.getD 0 []).getD 0 [] =
        ((pk4.getD 0 []).getD 0 []) ++ ((k4.getD 0 []).getD 0 [])) ∧
    (((mergeKV (some (pk4, pv4)) k4 v4).2.getD 0 []).getD 0 [] =
        ((pv4.getD 0 []).getD 0 []) ++ ((v4.getD 0 []).getD 0 [])) ∧
    (((mergeKV (some (pk4, pv4)) k4 v4).1.getD 0 []).getD 0 []).length =
        ((pk4.getD 0 []).getD 0 []).length + ((k4.getD 0 []).getD 0 []).length ∧
    (((mergeKV (some (pk4, pv4)) k4 v4).1.getD 0 []).getD 0 []).take
        ((pk4.getD 0 []).getD 0 []).length = (pk4.getD 0 []).getD 0 [] :=
  mergeKV_spec.2 pk4 pv4 k4 v4 0 0 (by decide) (by decide) (by decide) (by decide)
    (by decide) (by decide) (by decide) (by decide)

/-- C8: whenever the forward call returns, the attention-weights component
of the returned triple is `None`, regardless of `output_attentions` and of
which kernel ran. -/
theorem attn_weights_always_none (caps : Caps) (K : Kernels) (self : AttnSelf)
    (hub : HubState) (hs : T3) (am : Option T4) (pos : Option (List (List Nat)))
    (past : Option (T4 × T4)) (oa uc : Bool) (out : FwdOut)
    (h : internlm_attn_forward caps K self hub hs am pos past oa uc = Except.ok out) :
    out.1.2.1 = none := by
  simp only [internlm_attn_forward] at h
  split at h
  · simp at h
  · split at h
    · simp at h
    · rw [Except.ok.injEq] at h
      subst h
      rfl

theorem attn_weights_always_none_witness : (okOut fwd8).1.2.1 = none :=
  attn_weights_always_none capsF K0 self0 hubPadded hs1 none (some pos1) none true false
    (okOut fwd8) (by rfl)

/-- C7: whenever the forward call returns, the cache component of the
returned triple is present if and only if `use_cache` is true; when
`use_cache` is false it is `None` even if a past cache was supplied, and
when `use_cache` is true it is the `mergeKV` of the supplied past cache
with the newly computed key/value. -/
theorem newcache_iff_use_cache (caps : Caps) (K : Kernels) (self : AttnSelf)
    (hub : HubState) (hs : T3) (am : Option T4) (pos : Option (List (List Nat)))
    (past : Option (T4 × T4)) (oa uc : Bool) (out : FwdOut)
    (h : internlm_attn_forward caps K self hub hs am pos past oa uc = Except.ok out) :
    (uc = false → out.1.2.2 = none) ∧
    (uc = true → ∃ knew vnew, out.1.2.2 = some (mergeKV past knew vnew)) := by
  simp only [internlm_attn_forward] at h
  split at h
  · simp at h
  · split at h
    · simp at h
    · rw [Except.ok.injEq] at h
      subst h
      constructor
      · intro huc; simp [huc]
      · intro huc
        simp only [huc, if_true]
        exact ⟨_, _, rfl⟩

theorem newcache_iff_use_cache_witness :
    (true = false → (okOut fwd7).1.2.2 = none) ∧
    (true = true → ∃ knew vnew, (okOut fwd7).1.2.2 = some (mergeKV (some P0) knew vnew)) :=
  newcache_iff_use_cache capsF K0 self0 hubPadded hs1 none (some pos1) (some P0) false true
    (okOut fwd7) (by rfl)

/-- C9: two forward calls that differ only in the `attention_mask` argument
return identical results whenever the flash-attention capability is present
(the only situation in which the call can get past the eager capability
assertion): the mask is consumed only by the unreachable reference
scaled-dot-product fallback. -/
theorem mask_independent_on_flash_path (caps : Caps) (K : Kernels) (self : AttnSelf)
    (hub : HubState) (hs : T3) (m1 m2 : Option T4) (pos : Option (List (List Nat)))
    (past : Option (T4 × T4)) (oa uc : Bool)
    (h : caps.SUPPORT_FLASH2 = true) :
    internlm_attn_forward caps K self hub hs m1 pos past oa uc =
      internlm_attn_forward caps K self hub hs m2 pos past oa uc := by
  simp [internlm_attn_forward, h]

theorem mask_independent_on_flash_path_witness :
    internlm_attn_forward capsF K0 self0 hubPadded hs1 (some M0) (some pos1) none false false =
      internlm_attn_forward capsF K0 self0 hubPadded hs1 none (some pos1) none false false :=
  mask_independent_on_flash_path capsF K0 self0 hubPadded hs1 (some M0) none (some pos1)
    none false false (by rfl)

/-- C2 (amended): with packed layout active, a fatal layout assertion error
is raised, eagerly and for every choice of kernels, whenever the number of
samples in `cumulative_len` differs from the batch size or the FIRST
sample's final boundary differs from the row length; the call never falls
back to a padded interpretation in those cases.  (Mismatches confined to
samples other than the first are not detected: see the counterexample.) -/
theorem layout_mismatch_raises (caps : Caps) (K : Kernels) (self : AttnSelf)
    (hub : HubState) (hs : T3) (am : Option T4) (pos : Option (List (List Nat)))
    (past : Option (T4 × T4)) (oa uc : Bool) (cl : List (List Int))
    (hcl : hub.cumulative_len = some cl)
    (hbad : ¬ (cl.length = hs.length ∧
        (cl.getD 0 []).getLastD 0 = ((hs.getD 0 []).length : Int))) :
    internlm_attn_forward caps K self hub hs am pos past oa uc =
      Except.error PyErr.assertionLayout := by
  have hc : (!(cl.length == hs.length &&
      ((cl.getD 0 []).getLastD 0 == ((hs.getD 0 []).length : Int)))) = true := by
    cases hh : (cl.length == hs.length &&
        ((cl.getD 0 []).getLastD 0 == ((hs.getD 0 []).length : Int)))
    · rfl
    · rw [Bool.and_eq_true] at hh
      exact absurd ⟨by simpa using hh.1, by simpa using hh.2⟩ hbad
  simp only [internlm_attn_forward, hcl, Option.isSome_some, Option.getD_some,
    Bool.true_and, hc, if_true]

theorem layout_mismatch_raises_witness :
    internlm_attn_forward capsF K0 self0 hubW hs1 none (some pos1) none false false =
      Except.error PyErr.assertionLayout :=
  layout_mismatch_raises capsF K0 self0 hubW hs1 none (some pos1) none false false
    [[0, 3]] (by rfl) (by decide)

/-- C2 counterexample: a packed call in which the SECOND sample's final
boundary (2) differs from that sample's row length (3) raises no error at
all — the layout assertion inspects only the first sample — refuting the
claim that a mismatch in ANY sample is fatal. -/
theorem layout_mismatch_sample1_undetected :
    isOkB (internlm_attn_forward capsF K0 self0 hubBad hs2 none none none false false) = true ∧
    ((hubBad.cumulative_len.getD []).getD 1 []).getLastD 0 ≠ ((hs2.getD 1 []).length : Int) ∧
    (hs2.getD 1 []).length = (hs2.getD 0 []).length := by
  refine ⟨by rfl, by decide, by rfl⟩

/-- C1 counterexample: a padded call (no packing context) with the
packed/dense kernel library absent but the generic lower-triangular-bias
kernel available fails with the capability assertion instead of running
the generic kernel — refuting the claim that a padded call never fails
merely because the packed/dense kernel library is absent. -/
theorem padded_call_fails_without_flash2 :
    capsX.SUPPORT_FLASH2 = false ∧ capsX.SUPPORT_XFORMERS = true ∧
    hubPadded.cumulative_len = none ∧
    internlm_attn_forward capsX K0 self0 hubPadded hs1 none (some pos1) none false false =
      Except.error PyErr.assertionFlash2 :=
  ⟨rfl, rfl, rfl, rfl⟩

/-- C1 (amended): the packed/dense kernel library is mandatory for EVERY
forward call, packed or padded: its absence is a fatal capability
assertion raised eagerly at selection time (the result is then the same
for every choice of kernels, so no kernel is ever invoked).  When the
library is present, a padded call's result depends only on the dense
causal kernel and a packed call's result depends only on the packed
variable-length kernel; the generic lower-triangular-bias kernel and the
reference masked-softmax kernel are never consulted. -/
theorem flash2_required_for_all_layouts :
    (∀ (caps : Caps) (K : Kernels) (self : AttnSelf) (hub : HubState) (hs : T3)
        (am : Option T4) (pos : Option (List (List Nat))) (past : Option (T4 × T4))
        (oa uc : Bool), caps.SUPPORT_FLASH2 = false → hub.cumulative_len = none →
        internlm_attn_forward caps K self hub hs am pos past oa uc =
          Except.error PyErr.assertionFlash2) ∧
    (∀ (caps : Caps) (K : Kernels) (self : AttnSelf) (hub : HubState) (hs : T3)
        (am : Option T4) (pos : Option (List (List Nat))) (past : Option (T4 × T4))
        (oa uc : Bool) (cl : List (List Int)),
        caps.SUPPORT_FLASH2 = false → hub.cumulative_len = some cl →
        cl.length = hs.length →
        (cl.getD 0 []).getLastD 0 = ((hs.getD 0 []).length : Int) →
        internlm_attn_forward caps K self hub hs am pos past oa uc =
          Except.error PyErr.assertionFlash2) ∧
    (∀ (caps : Caps) (K Kb : Kernels) (self : AttnSelf) (hub : HubState) (hs : T3)
        (am : Option T4) (pos : Option (List (List Nat))) (past : Option (T4 × T4))
        (oa uc : Bool), caps.SUPPORT_FLASH2 = false →
        internlm_attn_forward caps K self hub hs am pos past oa uc =
          internlm_attn_forward caps Kb self hub hs am pos past oa uc) ∧
    (∀ (caps : Caps) (K Kb : Kernels) (self : AttnSelf) (hub : HubState) (hs : T3)
        (am : Option T4) (pos : Option (List (List Nat))) (past : Option (T4 × T4))
        (oa uc : Bool), caps.SUPPORT_FLASH2 = true → hub.cumulative_len = none →
        K.flash_attn_func = Kb.flash_attn_func →
        internlm_attn_forward caps K self hub hs am pos past oa uc =
          internlm_attn_forward caps Kb self hub hs am pos past oa uc) ∧
    (∀ (caps : Caps) (K Kb : Kernels) (self : AttnSelf) (hub : HubState) (hs : T3)
        (am : Option T4) (pos : Option (List (List Nat))) (past : Option (T4 × T4))
        (oa uc : Bool) (cl : List (List Int)),
        caps.SUPPORT_FLASH2 = true → hub.cumulative_len = some cl →
        K.flash_attn_varlen_func = Kb.flash_attn_varlen_func →
        internlm_attn_forward caps K self hub hs am pos past oa uc =
          internlm_attn_forward caps Kb self hub hs am pos past oa uc) := by
  refine ⟨?_, ?_, ?_, ?_, ?_⟩
  · intro caps K self hub hs am pos past oa uc hf hnone
    simp [internlm_attn_forward, hf, hnone]
  · intro caps K self hub hs am pos past oa uc cl hf hcl hlen hlast
    have hc : (cl.length == hs.length &&
        ((cl.getD 0 []).getLastD 0 == ((hs.getD 0 []).length : Int))) = true := by
      rw [Bool.and_eq_true]
      exact ⟨by simpa using hlen, by simpa using hlast⟩
    simp [internlm_attn_forward, hcl, hc, hf]
    exact ⟨by simpa using hlen, by simpa using hlast⟩
  · intro caps K Kb self hub hs am pos past oa uc hf
    simp [internlm_attn_forward, hf]
  · intro caps K Kb self hub hs am pos past oa uc hf hnone hK
    simp [internlm_attn_forward, hf, hnone, hK]
  · intro caps K Kb self hub hs am pos past oa uc cl hf hcl hK
    simp [internlm_attn_forward, hf, hcl, hK]

theorem flash2_required_witness :
    (internlm_attn_forward capsN K0 self0 hubPadded hs1 none (some pos1) none false false =
      Except.error PyErr.assertionFlash2) ∧
    (internlm_attn_forward capsN K0 self0 hubP hs2 none none none false false =
      Except.error PyErr.assertionFlash2) ∧
    (internlm_attn_forward capsN K0 self0 hubPadded hs1 none (some pos1) none false false =
      internlm_attn_forward capsN K1 self0 hubPadded hs1 none (some pos1) none false false) ∧
    (internlm_attn_forward capsF K0 self0 hubPadded hs1 none (some pos1) none false false =
      internlm_attn_forward capsF K2 self0 hubPadded hs1 none (some pos1) none false false) ∧
    (internlm_attn_forward capsF K0 self0 hubP hs2 none none none false false =
      internlm_attn_forward capsF K3 self0 hubP hs2 none none none false false) :=
  ⟨flash2_required_for_all_layouts.1 capsN K0 self0 hubPadded hs1 none (some pos1) none
      false false rfl rfl,
   flash2_required_for_all_layouts.2.1 capsN K0 self0 hubP hs2 none none none false false
      [[0, 3], [0, 3]] rfl rfl (by decide) (by decide),
   flash2_required_for_all_layouts.2.2.1 capsN K0 K1 self0 hubPadded hs1 none (some pos1)
      none false false rfl,
   flash2_required_for_all_layouts.2.2.2.1 capsF K0 K2 self0 hubPadded hs1 none (some pos1)
      none false false rfl rfl rfl,
   flash2_required_for_all_layouts.2.2.2.2 capsF K0 K3 self0 hubP hs2 none none none
      false false [[0, 3], [0, 3]] rfl rfl rfl⟩

/-- C3 is refuted by the code: the packed-layout boundary re-basing writes
through to the rank-scoped context.  At a packed call with two samples of
row length three and stored boundaries `[[0,3],[0,3]]`, the forward call
succeeds and the stored `cumulative_len` afterwards is `[[0,3],[3,6]]` —
the second sample's tensor was mutated in place by the `+=` of the
re-basing loop — while the claim requires it to remain `[[0,3],[0,3]]`.
(A second forward call in the same pass, as issued by every further
transformer layer, would therefore read corrupted boundaries.) -/
theorem packed_rebase_mutates_hub :
    hubP.cumulative_len = some [[0, 3], [0, 3]] ∧
    (internlm_attn_forward capsF K0 self0 hubP hs2 none none none false false).map
        (fun r => r.2.cumulative_len) = Except.ok (some [[0, 3], [3, 6]]) :=
  ⟨rfl, rfl⟩
